import Mathlib

/-!
Shallow embedding of the daily-dev-mcp security-analysis pipeline:

* `SecurityFileFilter` (src/unnamed/part_002): path classification and
  selection (`isSecurityRelevant`, `filterFiles`, `getAnalysisFilters`).
* `AnalysisChunker` (src/app/utils/analysisChunker.ts): grouping classified
  files into per-category chunks (`chunkByType`, `estimateTokens`).
* `ChunkProcessor` (src/unnamed/part_003, second half): per-chunk heuristic
  analysis (`processChunk`, `generateSummary`).
* `StreamingAnalyzer` (src/unnamed/part_003, first half): the sequential
  orchestrator (`processChunks`, `calculateProgress`, `aggregateResults`).

JavaScript strings are modelled as Lean `String`, with the handful of string
operations the source uses (`toLowerCase`, `split`, `pop`, `includes`,
`startsWith`) re-implemented on the underlying character list so that they
evaluate by kernel reduction.  Wall-clock times (`Date.now()`) are modelled as
explicit parameters or the constant 0; they feed no claim.  Counts are
`ℕ`/`ℤ`, and the token estimates are exact rationals (there the source's
double results coincide with the exact ones on every reachable input, since
`n*100*1.5` is exact and `n*100*1.2` rounds back to the integer `120*n`).
The progress percentage and success rate are different: JS evaluates
`Math.round((a/b)*100)` in doubles, whose value can differ from exact
rounding (57 instead of 58 at `a = 23, b = 40`), so that expression is
modelled bit-exactly by `jsPercentage`, built from correctly rounded 53-bit
division and multiplication (`flDiv`, `flMul100`) and the JS `Math.round`
rule (nearest, ties toward positive infinity).
-/

/-- Character-list prefix test underlying the JS string operations. -/
def isPrefixL : List Char → List Char → Bool
  | [], _ => true
  | _ :: _, [] => false
  | a :: as, b :: bs => a == b && isPrefixL as bs

/-- Character-list infix test underlying JS `String.prototype.includes`. -/
def hasInfixL (sub : List Char) : List Char → Bool
  | [] => isPrefixL sub []
  | b :: bs => isPrefixL sub (b :: bs) || hasInfixL sub bs

/-- JS `s.includes(sub)`. -/
def strIncludes (s sub : String) : Bool := hasInfixL sub.data s.data

/-- JS `s.startsWith(pre)`. -/
def strStartsWith (s pre : String) : Bool := isPrefixL pre.data s.data

/-- JS `s.toLowerCase()` (the source only compares ASCII path characters). -/
def strToLower (s : String) : String := String.mk (s.data.map Char.toLower)

/-- JS `s.split(c)` for a single-character separator. -/
def splitOnCharL (c : Char) : List Char → List (List Char)
  | [] => [[]]
  | x :: xs =>
    let rest := splitOnCharL c xs
    if x == c then [] :: rest
    else
      match rest with
      | [] => [[x]]
      | r :: rs => (x :: r) :: rs

/-- JS `s.split(c).pop() || ''`: the segment after the last separator. -/
def lastSplitSegment (c : Char) (s : String) : String :=
  String.mk ((splitOnCharL c s.data).getLast?.getD [])

/-- Fuel-based floor binary logarithm on naturals (`natLog2 n` is the `k` with
`2^k ≤ n < 2^(k+1)` for `n ≥ 1`). -/
def log2Aux : ℕ → ℕ → ℕ
  | 0, _ => 0
  | fuel + 1, n => if 2 ≤ n then log2Aux fuel (n / 2) + 1 else 0

/-- Floor binary logarithm. -/
def natLog2 (n : ℕ) : ℕ := log2Aux n n

/-- The binade of the positive rational `num/den`: the `e` with
`2^e ≤ num/den < 2^(e+1)`. -/
def ratFloorLog2 (num den : ℕ) : ℤ :=
  if den ≤ num then (natLog2 (num / den) : ℤ)
  else
    let k := natLog2 (den / num)
    if num * 2 ^ k = den then -(k : ℤ) else -(k : ℤ) - 1

/-- Round the rational `p/q` to the nearest natural, ties to even — the
IEEE-754 default rounding, applied to a scaled mantissa. -/
def rndNearEven (p q : ℕ) : ℕ :=
  let f := p / q
  let r := p % q
  if 2 * r < q then f
  else if q < 2 * r then f + 1
  else if f % 2 = 0 then f else f + 1

/-- IEEE-754 double division `num / den` for positive naturals that are
exactly representable (below `2^53`, which covers every array index and count
the source can produce): the correctly rounded 53-bit result, as a mantissa
`M ∈ [2^52, 2^53)` and a binade exponent `e`, denoting `M * 2^(e-52)`.
Subnormals and overflow are not modelled; they are unreachable from the
source's operand range. -/
def flDiv (num den : ℕ) : ℕ × ℤ :=
  let e := ratFloorLog2 num den
  let M :=
    if e ≤ 52 then rndNearEven (num * 2 ^ (52 - e).toNat) den
    else rndNearEven num (den * 2 ^ (e - 52).toNat)
  if M = 2 ^ 53 then (2 ^ 52, e + 1) else (M, e)

/-- IEEE-754 double multiplication of a normal double by the exact constant
100: the exact product `M * 100 * 2^(e-52)` rounded back to 53 bits. -/
def flMul100 : ℕ × ℤ → ℕ × ℤ
  | (M, e) =>
    let p := M * 100
    let s : ℕ := if p < 2 ^ 59 then 6 else 7
    let M2 := rndNearEven p (2 ^ s)
    if M2 = 2 ^ 53 then (2 ^ 52, e + (s : ℤ) + 1) else (M2, e + (s : ℤ))

/-- JS `Math.round` of the nonnegative double `M * 2^(e-52)`: the nearest
integer, ties toward positive infinity. -/
def jsMathRound : ℕ × ℤ → ℕ
  | (M, e) =>
    if 52 ≤ e then M * 2 ^ (e - 52).toNat
    else (M + 2 ^ ((52 - e).toNat - 1)) / 2 ^ (52 - e).toNat

/-- JS `Math.round((num/den) * 100)` exactly as the source evaluates it, in
IEEE-754 double arithmetic — e.g. `jsPercentage 23 40 = 57`, not the exact
half-up rounding 58, because `(23/40)*100` is the double
`57.49999999999999…`.  `den = 0` (JS `Infinity`/`NaN`) is unreachable here:
the chunk loop only divides by a positive total and the summary guards the
`0/0` case separately before rendering. -/
def jsPercentage (num den : ℕ) : ℕ :=
  if den = 0 then 0
  else if num = 0 then 0
  else jsMathRound (flMul100 (flDiv num den))

/-- JS `Math.round(q)` on an exact rational (round half toward positive). -/
def jsRoundQ (q : ℚ) : ℤ := ⌊q + 1 / 2⌋

/-- The `type` union of `SecurityFile`
(`'config' | 'dependency' | 'secret' | 'security' | 'deployment'`). -/
inductive FileType
  | config
  | dependency
  | secret
  | security
  | deployment
deriving DecidableEq

/-- String name of a category, as used for object keys and interpolation. -/
def FileType.name : FileType → String
  | .config => "config"
  | .dependency => "dependency"
  | .secret => "secret"
  | .security => "security"
  | .deployment => "deployment"

/-- The `priority` union (`'high' | 'medium' | 'low'`). -/
inductive Priority
  | high
  | medium
  | low
deriving DecidableEq

/-- The `SecurityFile` interface (src/unnamed/part_002). -/
structure SecurityFile where
  path : String
  type : FileType
  priority : Priority
  reason : String
deriving DecidableEq

/-- The `FileFilterOptions` interface; `none` models an omitted (`undefined`)
optional field. -/
structure FileFilterOptions where
  includeConfigFiles : Option Bool := none
  includeDependencyFiles : Option Bool := none
  includeSecretFiles : Option Bool := none
  includeSecurityFiles : Option Bool := none
  includeDeploymentFiles : Option Bool := none
  maxFiles : Option ℕ := none
deriving DecidableEq

namespace SecurityFileFilter

/-- The `SECURITY_PATTERNS` static table. -/
def SECURITY_PATTERNS : FileType → List String
  | .secret =>
      [".env", ".env.local", ".env.production", ".env.staging",
       "secrets.json", "credentials.json", "keys.json",
       "secret", "key", "token", "credential", "password", "auth"]
  | .dependency =>
      ["package.json", "package-lock.json", "yarn.lock", "pnpm-lock.yaml",
       "requirements.txt", "Pipfile", "poetry.lock", "pom.xml", "build.gradle",
       "Gemfile", "Gemfile.lock", "composer.json", "composer.lock",
       "Cargo.toml", "Cargo.lock", "go.mod", "go.sum"]
  | .security =>
      ["security", "auth", "authentication", "authorization", "permission",
       "firewall", "cors", "csp", "security.json", "auth.json"]
  | .deployment =>
      ["dockerfile", "docker-compose", "kubernetes", "k8s", "helm",
       "terraform", "ansible", "deployment", "infrastructure",
       ".dockerignore", "docker-compose.yml", "docker-compose.yaml"]
  | .config =>
      ["config", "settings", "properties", "ini", "yaml", "yml",
       "xml", "conf", "cfg"]

/-- Iteration order of `Object.entries(this.SECURITY_PATTERNS)`: the insertion
order of the object literal. -/
def categoryOrder : List FileType :=
  [.secret, .dependency, .security, .deployment, .config]

/-- The `shouldIncludeCategory`: a category is excluded only when its flag is
explicitly `false` (`options.includeXFiles !== false`). -/
def shouldIncludeCategory (category : FileType) (options : FileFilterOptions) : Bool :=
  match category with
  | .config => options.includeConfigFiles != some false
  | .dependency => options.includeDependencyFiles != some false
  | .secret => options.includeSecretFiles != some false
  | .security => options.includeSecurityFiles != some false
  | .deployment => options.includeDeploymentFiles != some false

/-- The `getPriority(category, filePath)` (called on the lowercased path). -/
def getPriority (category : FileType) (filePath : String) : Priority :=
  if category == .secret then .high
  else if category == .dependency && !strIncludes filePath "/" then .high
  else if category == .config && strIncludes filePath ".env" then .high
  else if category == .security then .medium
  else if category == .deployment then .medium
  else .low

/-- The `getPriorityScore`. -/
def getPriorityScore : Priority → ℕ
  | .high => 3
  | .medium => 2
  | .low => 1

/-- The `typeOrder` table used as the secondary sort key in `filterFiles`. -/
def typeOrderScore : FileType → ℕ
  | .secret => 5
  | .dependency => 4
  | .security => 3
  | .deployment => 2
  | .config => 1

/-- One evaluation of the `patterns.some(pattern => ...)` callback inside
`isSecurityRelevant`.  When the secret-specific checks fail, control falls
through to the generic substring and config-extension checks, exactly as in
the source (the secret block has no `return false`). -/
def patternMatch (category : FileType) (normalizedPath fileName fileExtension : String)
    (pattern : String) : Bool :=
  let normalizedPattern := strToLower pattern
  if fileName == normalizedPattern then true
  else if category == .dependency then fileName == normalizedPattern
  else if category == .secret &&
      (fileName == normalizedPattern ||
       (strStartsWith normalizedPattern "." && strStartsWith fileName normalizedPattern) ||
       (strIncludes normalizedPath normalizedPattern &&
        !strIncludes normalizedPath "node_modules")) then true
  else if strIncludes normalizedPath normalizedPattern then
    !strIncludes normalizedPath "node_modules" &&
    !strIncludes normalizedPath "dist/" &&
    !strIncludes normalizedPath "build/"
  else if category == .config && fileExtension != "" &&
      ["yaml", "yml", "xml", "ini", "conf"].contains fileExtension then
    if fileExtension == "toml" && fileName != "config.toml" then false
    else if fileExtension == "json" && fileName != "config.json" then false
    else true
  else false

/-- Whether any pattern of `category` matches (`patterns.some(...)`). -/
def categoryMatches (category : FileType) (normalizedPath fileName fileExtension : String) :
    Bool :=
  (SECURITY_PATTERNS category).any
    (patternMatch category normalizedPath fileName fileExtension)

/-- The `reason` string of a classified file:
`Matched (category) pattern: (patterns.find(p => normalizedPath.includes(p.toLowerCase())) || 'exact match')`. -/
def matchReason (category : FileType) (normalizedPath : String) : String :=
  "Matched " ++ category.name ++ " pattern: " ++
    (((SECURITY_PATTERNS category).find?
        (fun p => strIncludes normalizedPath (strToLower p))).getD "exact match")

/-- The `filePath.toLowerCase()`. -/
def normalizedPathOf (filePath : String) : String := strToLower filePath

/-- The `normalizedPath.split('/').pop() || ''`. -/
def fileNameOf (filePath : String) : String :=
  lastSplitSegment '/' (normalizedPathOf filePath)

/-- The `fileName.includes('.') ? fileName.split('.').pop() : ''`. -/
def fileExtensionOf (filePath : String) : String :=
  let fileName := fileNameOf filePath
  if strIncludes fileName "." then lastSplitSegment '.' fileName else ""

/-- The `isSecurityRelevant(filePath, options)`: the category loop returns at the
first included category whose pattern set matches. -/
def isSecurityRelevant (filePath : String) (options : FileFilterOptions := {}) :
    Option SecurityFile :=
  let normalizedPath := normalizedPathOf filePath
  let fileName := fileNameOf filePath
  let fileExtension := fileExtensionOf filePath
  (categoryOrder.find? fun category =>
      shouldIncludeCategory category options &&
      categoryMatches category normalizedPath fileName fileExtension).map
    fun category =>
      { path := filePath
        type := category
        priority := getPriority category normalizedPath
        reason := matchReason category normalizedPath }

/-- The JS sort comparator of `filterFiles`, expressed as the `le` test of a
stable merge sort: `fileLE a b` iff the comparator returns `≤ 0` on `(a, b)`
(priority score descending, then `typeOrder` descending). -/
def fileLE (a b : SecurityFile) : Bool :=
  if getPriorityScore b.priority != getPriorityScore a.priority then
    decide (getPriorityScore b.priority < getPriorityScore a.priority)
  else decide (typeOrderScore b.type ≤ typeOrderScore a.type)

/-- The `filterFiles(filePaths, options)`.  The truncation guard is the JS
truthiness test `options.maxFiles && securityFiles.length > options.maxFiles`:
an absent `maxFiles` and `maxFiles = 0` both skip the `slice`. -/
def filterFiles (filePaths : List String) (options : FileFilterOptions := {}) :
    List SecurityFile :=
  let securityFiles :=
    ((filePaths.map fun p => isSecurityRelevant p options).filterMap id).mergeSort fileLE
  match options.maxFiles with
  | some m => if m ≠ 0 ∧ securityFiles.length > m then securityFiles.take m else securityFiles
  | none => securityFiles

/-- The `getAnalysisFilters(analysisType)` static policy table. -/
def getAnalysisFilters (analysisType : String) : FileFilterOptions :=
  if analysisType == "secrets" then
    { includeSecretFiles := some true, includeConfigFiles := some true, maxFiles := some 20 }
  else if analysisType == "vulnerabilities" then
    { includeSecurityFiles := some true, includeDependencyFiles := some true, maxFiles := some 15 }
  else if analysisType == "dependencies" then
    { includeDependencyFiles := some true, maxFiles := some 10 }
  else if analysisType == "code-patterns" then
    { includeSecurityFiles := some true, includeConfigFiles := some true, maxFiles := some 25 }
  else
    { includeConfigFiles := some true, includeDependencyFiles := some true,
      includeSecretFiles := some true, includeSecurityFiles := some true,
      includeDeploymentFiles := some true, maxFiles := some 30 }

end SecurityFileFilter

/-- The `AnalysisChunk` interface (src/app/utils/analysisChunker.ts).  Token
estimates are exact rationals. -/
structure AnalysisChunk where
  id : String
  type : FileType
  files : List SecurityFile
  priority : Priority
  description : String
  estimatedTokens : ℚ
deriving DecidableEq

namespace AnalysisChunker

/-- The `getChunkPriority(files)`: highest priority among the chunk's files. -/
def getChunkPriority (files : List SecurityFile) : Priority :=
  let priorities := files.map fun f => f.priority
  if priorities.contains .high then .high
  else if priorities.contains .medium then .medium
  else .low

/-- The `estimateTokens(files)`: `files.length * 100`, scaled by the multiplier of
`files[0]?.type` (absent type hits the `default` arm) and capped at 4000. -/
def estimateTokens (files : List SecurityFile) : ℚ :=
  let baseTokens : ℚ := (files.length : ℚ) * 100
  let scaled :=
    match files.head? with
    | some f =>
      match f.type with
      | .secret => baseTokens * 2
      | .dependency => baseTokens * 1.5
      | .config => baseTokens * 1.2
      | _ => baseTokens * 1
    | none => baseTokens * 1
  min scaled 4000

/-- Iteration order of the `filesByType` JS `Map`: insertion order, i.e. the
order of first occurrence of each file type in the input list. -/
def typeInsertionOrder : List SecurityFile → List FileType
  | [] => []
  | f :: rest => f.type :: (typeInsertionOrder rest).filter (fun t => t != f.type)

/-- The `chunkByType(securityFiles)`.  The JS `Map` groups the files of each type
in input order, which for type `t` is exactly `securityFiles.filter (·.type == t)`;
`now` is the `Date.now()` value interpolated into the chunk ids. -/
def chunkByType (securityFiles : List SecurityFile) (now : ℕ) : List AnalysisChunk :=
  (typeInsertionOrder securityFiles).filterMap fun t =>
    let files := securityFiles.filter fun f => f.type == t
    if files.length = 0 then none
    else some
      { id := "chunk-" ++ t.name ++ "-" ++ toString now
        type := t
        files := files
        priority := getChunkPriority files
        description := toString files.length ++ " " ++ t.name ++ " files"
        estimatedTokens := estimateTokens files }

end AnalysisChunker

/-- The `severity` union of `ChunkFinding`. -/
inductive Severity
  | critical
  | high
  | medium
  | low
  | info
deriving DecidableEq

/-- The `type` union of `ChunkFinding`. -/
inductive FindingType
  | vulnerability
  | secret
  | dependency
  | configuration
  | security
deriving DecidableEq

/-- The `ChunkFinding` interface (src/unnamed/part_003). -/
structure ChunkFinding where
  type : FindingType
  severity : Severity
  title : String
  description : String
  filePath : Option String := none
  lineNumber : Option ℕ := none
  recommendation : Option String := none
deriving DecidableEq

/-- The `overallRisk` union. -/
inductive Risk
  | critical
  | high
  | medium
  | low
  | safe
deriving DecidableEq

/-- The `ChunkSummary` interface. -/
structure ChunkSummary where
  totalFindings : ℕ
  criticalFindings : ℕ
  highFindings : ℕ
  mediumFindings : ℕ
  lowFindings : ℕ
  infoFindings : ℕ
  overallRisk : Risk
deriving DecidableEq

/-- The `ChunkResult` interface. -/
structure ChunkResult where
  chunkId : String
  chunkType : String
  analysisType : String
  findings : List ChunkFinding
  summary : ChunkSummary
  processingTime : ℕ
  tokensUsed : ℤ
deriving DecidableEq

namespace ChunkProcessor

/-- The `analyzeSecretFiles(files)`: per-file findings, in file order. -/
def analyzeSecretFiles (files : List SecurityFile) : List ChunkFinding :=
  (files.map fun file =>
    (if strIncludes file.path ".env" then
      [{ type := .secret
         severity := .high
         title := "Environment file detected"
         description := "Environment file found: " ++ file.path ++
           ". Ensure this file is not committed to version control."
         filePath := some file.path
         recommendation :=
           some "Add .env files to .gitignore and use environment variables for secrets." }]
     else []) ++
    (if strIncludes file.path "secrets.json" || strIncludes file.path "credentials.json" then
      [{ type := .secret
         severity := .critical
         title := "Secrets file detected"
         description := "Secrets file found: " ++ file.path ++
           ". This file may contain sensitive credentials."
         filePath := some file.path
         recommendation :=
           some "Use a secrets management service instead of storing secrets in files." }]
     else [])).flatten

/-- The `analyzeDependencyFiles(files)`. -/
def analyzeDependencyFiles (files : List SecurityFile) : List ChunkFinding :=
  (files.map fun file =>
    (if strIncludes file.path "package.json" then
      [{ type := .dependency
         severity := .medium
         title := "Dependency file detected"
         description := "Dependency file found: " ++ file.path ++
           ". Review dependencies for known vulnerabilities."
         filePath := some file.path
         recommendation := some "Run npm audit regularly and keep dependencies updated." }]
     else []) ++
    (if strIncludes file.path "requirements.txt" then
      [{ type := .dependency
         severity := .medium
         title := "Python dependencies detected"
         description := "Python dependency file found: " ++ file.path ++
           ". Review for security vulnerabilities."
         filePath := some file.path
         recommendation := some "Use tools like safety to check for known vulnerabilities." }]
     else [])).flatten

/-- The `analyzeConfigFiles(files)`: one low-severity finding per file. -/
def analyzeConfigFiles (files : List SecurityFile) : List ChunkFinding :=
  files.map fun file =>
    { type := .configuration
      severity := .low
      title := "Configuration file detected"
      description := "Configuration file found: " ++ file.path ++
        ". Review for security settings."
      filePath := some file.path
      recommendation := some "Ensure configuration files have appropriate security settings." }

/-- The `analyzeSecurityFiles(files)`: one medium-severity finding per file. -/
def analyzeSecurityFiles (files : List SecurityFile) : List ChunkFinding :=
  files.map fun file =>
    { type := .security
      severity := .medium
      title := "Security file detected"
      description := "Security-related file found: " ++ file.path ++
        ". Review security configurations."
      filePath := some file.path
      recommendation := some "Ensure security configurations follow best practices." }

/-- The `analyzeDeploymentFiles(files)`. -/
def analyzeDeploymentFiles (files : List SecurityFile) : List ChunkFinding :=
  (files.map fun file =>
    (if strIncludes (strToLower file.path) "dockerfile" then
      [{ type := .security
         severity := .medium
         title := "Dockerfile detected"
         description := "Dockerfile found: " ++ file.path ++
           ". Review for security best practices."
         filePath := some file.path
         recommendation :=
           some "Use multi-stage builds, run as non-root user, and scan for vulnerabilities." }]
     else []) ++
    (if strIncludes (strToLower file.path) "docker-compose" then
      [{ type := .security
         severity := .low
         title := "Docker Compose file detected"
         description := "Docker Compose file found: " ++ file.path ++
           ". Review container configurations."
         filePath := some file.path
         recommendation :=
           some "Ensure containers don\x27t run as root and use secure base images." }]
     else [])).flatten

/-- The `analyzeChunkByType(chunk)`: dispatch on the chunk's category. -/
def analyzeChunkByType (chunk : AnalysisChunk) : List ChunkFinding :=
  match chunk.type with
  | .secret => analyzeSecretFiles chunk.files
  | .dependency => analyzeDependencyFiles chunk.files
  | .config => analyzeConfigFiles chunk.files
  | .security => analyzeSecurityFiles chunk.files
  | .deployment => analyzeDeploymentFiles chunk.files

/-- The `generateSummary(findings)`: per-severity counts and worst-severity-wins
overall risk. -/
def generateSummary (findings : List ChunkFinding) : ChunkSummary :=
  let criticalFindings := (findings.filter fun f => f.severity == .critical).length
  let highFindings := (findings.filter fun f => f.severity == .high).length
  let mediumFindings := (findings.filter fun f => f.severity == .medium).length
  let lowFindings := (findings.filter fun f => f.severity == .low).length
  let infoFindings := (findings.filter fun f => f.severity == .info).length
  let overallRisk : Risk :=
    if criticalFindings > 0 then .critical
    else if highFindings > 0 then .high
    else if mediumFindings > 0 then .medium
    else if lowFindings > 0 then .low
    else .safe
  { totalFindings := findings.length
    criticalFindings := criticalFindings
    highFindings := highFindings
    mediumFindings := mediumFindings
    lowFindings := lowFindings
    infoFindings := infoFindings
    overallRisk := overallRisk }

/-- The `estimateTokensUsed(chunk, findings)`. -/
def estimateTokensUsed (chunk : AnalysisChunk) (findings : List ChunkFinding) : ℤ :=
  jsRoundQ (chunk.estimatedTokens + (findings.length : ℚ) * 50 + 100)

/-- The `processChunk(chunk)` for a processor constructed with `analysisType`
(the `repository` field is never read while processing); wall-clock duration
is modelled as 0. -/
def processChunk (analysisType : String) (chunk : AnalysisChunk) : ChunkResult :=
  let findings := analyzeChunkByType chunk
  let summary := generateSummary findings
  let tokensUsed := estimateTokensUsed chunk findings
  { chunkId := chunk.id
    chunkType := chunk.type.name
    analysisType := analysisType
    findings := findings
    summary := summary
    processingTime := 0
    tokensUsed := tokensUsed }

end ChunkProcessor

/-- The `StreamingProgress` interface (src/unnamed/part_003). -/
structure StreamingProgress where
  currentChunk : ℕ
  totalChunks : ℕ
  currentChunkType : String
  processedChunks : ℕ
  failedChunks : ℕ
  totalFindings : ℕ
  estimatedTimeRemaining : ℕ
  percentage : ℕ
deriving DecidableEq

/-- The `AggregatedAnalysis` interface. -/
structure AggregatedAnalysis where
  totalChunks : ℕ
  processedChunks : ℕ
  failedChunks : ℕ
  totalFindings : ℕ
  criticalFindings : ℕ
  highFindings : ℕ
  mediumFindings : ℕ
  lowFindings : ℕ
  infoFindings : ℕ
  overallRisk : Risk
  chunkResults : List ChunkResult
  processingTime : ℕ
  totalTokensUsed : ℤ
  summary : String
deriving DecidableEq

/-- One synchronous callback invocation of the orchestrator: `onProgress`,
`onChunkComplete` or `onError`, recorded in emission order. -/
inductive StreamEvent
  | progress (p : StreamingProgress)
  | chunkComplete (r : ChunkResult)
  | chunkError (e : String) (chunk : AnalysisChunk)
deriving DecidableEq

namespace StreamingAnalyzer

/-- The `calculateProgress(currentIndex, totalChunks, totalFindings, failedChunks,
currentChunkType)` helper.  The reported `processedChunks` is the loop index
`currentIndex`, not the number of successfully processed chunks, and the
percentage is the double-precision `Math.round(((currentIndex+1)/totalChunks)*100)`. -/
def calculateProgress (currentIndex totalChunks totalFindings failedChunks : ℕ)
    (currentChunkType : String) : StreamingProgress :=
  let percentage := jsPercentage (currentIndex + 1) totalChunks
  let processedChunks := currentIndex
  let estimatedTimePerChunk := 100
  let remainingChunks := totalChunks - currentIndex - 1
  let estimatedTimeRemaining := remainingChunks * estimatedTimePerChunk
  { currentChunk := currentIndex + 1
    totalChunks := totalChunks
    currentChunkType := currentChunkType
    processedChunks := processedChunks
    failedChunks := failedChunks
    totalFindings := totalFindings
    estimatedTimeRemaining := estimatedTimeRemaining
    percentage := percentage }

/-- The success-rate component of the narrative summary:
`Math.round((processedChunks/totalChunks)*100)` in double arithmetic, which
in JS is `NaN` when `totalChunks` is 0 (the `0/0` case). -/
def successRateStr (processedChunks totalChunks : ℕ) : String :=
  if totalChunks = 0 then "NaN" else toString (jsPercentage processedChunks totalChunks)

/-- The `generateSummary(...)` of the streaming analyzer: the multi-line narrative
string (its `failedChunks` parameter is unused, as in the source). -/
def generateSummary (totalChunks processedChunks failedChunks totalFindings
    criticalFindings highFindings mediumFindings lowFindings processingTime : ℕ)
    (totalTokensUsed : ℤ) : String :=
  let successRate := successRateStr processedChunks totalChunks
  String.intercalate "\n"
    ["Processed " ++ toString processedChunks ++ "/" ++ toString totalChunks ++
       " chunks (" ++ successRate ++ "% success rate)",
     "Found " ++ toString totalFindings ++ " security issues:",
     "  • Critical: " ++ toString criticalFindings,
     "  • High: " ++ toString highFindings,
     "  • Medium: " ++ toString mediumFindings,
     "  • Low: " ++ toString lowFindings,
     "Completed in " ++ toString processingTime ++ "ms using ~" ++
       toString totalTokensUsed ++ " tokens"]

/-- The `aggregateResults(chunkResults, totalChunks, failedChunks, totalFindings,
processingTime)`: fold the per-chunk severity summaries into the final
verdict. -/
def aggregateResults (chunkResults : List ChunkResult)
    (totalChunks failedChunks totalFindings processingTime : ℕ) : AggregatedAnalysis :=
  let criticalFindings : ℕ := (chunkResults.map fun r => r.summary.criticalFindings).sum
  let highFindings : ℕ := (chunkResults.map fun r => r.summary.highFindings).sum
  let mediumFindings : ℕ := (chunkResults.map fun r => r.summary.mediumFindings).sum
  let lowFindings : ℕ := (chunkResults.map fun r => r.summary.lowFindings).sum
  let infoFindings : ℕ := (chunkResults.map fun r => r.summary.infoFindings).sum
  let totalTokensUsed : ℤ := (chunkResults.map fun r => r.tokensUsed).sum
  let overallRisk : Risk :=
    if criticalFindings > 0 then .critical
    else if highFindings > 0 then .high
    else if mediumFindings > 0 then .medium
    else if lowFindings > 0 then .low
    else .safe
  let summary := generateSummary totalChunks chunkResults.length failedChunks totalFindings
    criticalFindings highFindings mediumFindings lowFindings processingTime totalTokensUsed
  { totalChunks := totalChunks
    processedChunks := chunkResults.length
    failedChunks := failedChunks
    totalFindings := totalFindings
    criticalFindings := criticalFindings
    highFindings := highFindings
    mediumFindings := mediumFindings
    lowFindings := lowFindings
    infoFindings := infoFindings
    overallRisk := overallRisk
    chunkResults := chunkResults
    processingTime := processingTime
    totalTokensUsed := totalTokensUsed
    summary := summary }

/-- Mutable loop state of `processChunks`, together with the trace of emitted
callback events. -/
structure RunState where
  chunkResults : List ChunkResult := []
  totalFindings : ℕ := 0
  failedChunks : ℕ := 0
  events : List StreamEvent := []
deriving DecidableEq

/-- One iteration of the `processChunks` loop at index `currentIndex`: emit
progress, then either record the result and emit `onChunkComplete`, or (when
the processor throws) bump the failure counter and emit `onError`. -/
def stepChunk (processor : AnalysisChunk → Except String ChunkResult)
    (totalChunks currentIndex : ℕ) (st : RunState) (chunk : AnalysisChunk) : RunState :=
  let progress := calculateProgress currentIndex totalChunks st.totalFindings st.failedChunks
    chunk.type.name
  match processor chunk with
  | .ok result =>
    { chunkResults := st.chunkResults ++ [result]
      totalFindings := st.totalFindings + result.findings.length
      failedChunks := st.failedChunks
      events := st.events ++ [.progress progress, .chunkComplete result] }
  | .error e =>
    { chunkResults := st.chunkResults
      totalFindings := st.totalFindings
      failedChunks := st.failedChunks + 1
      events := st.events ++ [.progress progress, .chunkError e chunk] }

/-- The sequential `for` loop of `processChunks`, indexed from `currentIndex`. -/
def runChunks (processor : AnalysisChunk → Except String ChunkResult) (totalChunks : ℕ) :
    ℕ → RunState → List AnalysisChunk → RunState
  | _, st, [] => st
  | currentIndex, st, chunk :: rest =>
    runChunks processor totalChunks (currentIndex + 1)
      (stepChunk processor totalChunks currentIndex st chunk) rest

/-- The `processChunks(chunks)`, parameterized by the per-chunk processor (which
models `new ChunkProcessor(...).processChunk`, a call that may throw); returns
the aggregated verdict and the emitted callback trace.  Elapsed wall-clock
time is modelled as 0. -/
def processChunks (processor : AnalysisChunk → Except String ChunkResult)
    (chunks : List AnalysisChunk) : AggregatedAnalysis × List StreamEvent :=
  let final := runChunks processor chunks.length 0 {} chunks
  (aggregateResults final.chunkResults chunks.length final.failedChunks final.totalFindings 0,
   final.events)

end StreamingAnalyzer

/-- The deterministic Unit Processor used in production: `processChunk` never
throws, so it always returns on the `ok` branch of the may-throw interface. -/
def detProcessor (analysisType : String) (chunk : AnalysisChunk) : Except String ChunkResult :=
  Except.ok (ChunkProcessor.processChunk analysisType chunk)

/-- Whether a processor call returned instead of throwing. -/
def isOkB (r : Except String ChunkResult) : Bool :=
  match r with
  | .ok _ => true
  | .error _ => false

/-- Number of chunks on which the processor throws. -/
def failuresIn (processor : AnalysisChunk → Except String ChunkResult)
    (chunks : List AnalysisChunk) : ℕ :=
  chunks.countP fun c => !isOkB (processor c)

/-- Number of chunks the processor handles successfully. -/
def successesIn (processor : AnalysisChunk → Except String ChunkResult)
    (chunks : List AnalysisChunk) : ℕ :=
  chunks.countP fun c => isOkB (processor c)

/-- Cumulative number of findings over the successfully processed chunks. -/
def findingsIn (processor : AnalysisChunk → Except String ChunkResult)
    (chunks : List AnalysisChunk) : ℕ :=
  (chunks.map fun c =>
    match processor c with
    | .ok r => r.findings.length
    | .error _ => 0).sum

/-- The `onProgress` invocations of a callback trace, in order. -/
def progressEventsOf (events : List StreamEvent) : List StreamingProgress :=
  events.filterMap fun e =>
    match e with
    | .progress p => some p
    | _ => none

/-- The `onError` invocations of a callback trace (error and failing chunk). -/
def errorEventsOf (events : List StreamEvent) : List (String × AnalysisChunk) :=
  events.filterMap fun e =>
    match e with
    | .chunkError err chunk => some (err, chunk)
    | _ => none

/-- Modelled from the spec: the worst-severity-wins roll-up rule (§4.4/§8):
critical if any critical finding, else high if any high, else medium if any
medium, else low if any low, else safe. -/
def specWorstSeverityRollup (findings : List ChunkFinding) : Risk :=
  if findings.any fun f => f.severity == .critical then .critical
  else if findings.any fun f => f.severity == .high then .high
  else if findings.any fun f => f.severity == .medium then .medium
  else if findings.any fun f => f.severity == .low then .low
  else .safe

/-- Modelled from the claim wording for C9: the category cost multiplier
(secret ×2, dependency ×1.5, config ×1.2, all other categories ×1). -/
def claimCatMultiplier : FileType → ℚ
  | .secret => 2
  | .dependency => 3 / 2
  | .config => 6 / 5
  | .security => 1
  | .deployment => 1

deriving instance Fintype for FileType

namespace SecurityFileFilter

/-- Position of a category in the evaluation order `categoryOrder`
(0 = evaluated first). -/
def precedenceRank : FileType → ℕ
  | .secret => 0
  | .dependency => 1
  | .security => 2
  | .deployment => 3
  | .config => 4

/-- The first category of `categoryOrder` whose pattern set matches the path
(with every category admitted, i.e. under the default options). -/
def firstMatchingCategory (filePath : String) : Option FileType :=
  categoryOrder.find? fun c =>
    categoryMatches c (normalizedPathOf filePath) (fileNameOf filePath)
      (fileExtensionOf filePath)

/-- The `SecurityFile` record built for a path that matched category `c`. -/
def classifiedFileFor (filePath : String) (c : FileType) : SecurityFile :=
  { path := filePath
    type := c
    priority := getPriority c (normalizedPathOf filePath)
    reason := matchReason c (normalizedPathOf filePath) }

end SecurityFileFilter

/-- The callback trace `processChunks` emits while working through `chunks`
from loop index `i`, with running totals `tf` findings and `fc` failures. -/
def traceFor (processor : AnalysisChunk → Except String ChunkResult) (total : ℕ) :
    ℕ → ℕ → ℕ → List AnalysisChunk → List StreamEvent
  | _, _, _, [] => []
  | i, tf, fc, c :: rest =>
    let p := StreamingAnalyzer.calculateProgress i total tf fc c.type.name
    match processor c with
    | .ok r =>
      .progress p :: .chunkComplete r ::
        traceFor processor total (i + 1) (tf + r.findings.length) fc rest
    | .error e =>
      .progress p :: .chunkError e c :: traceFor processor total (i + 1) tf (fc + 1) rest

/-- Test fixture: how the classifier labels `package.json`. -/
def pkgDepFile : SecurityFile :=
  { path := "package.json"
    type := .dependency
    priority := .high
    reason := "Matched dependency pattern: package.json" }

/-- Test fixture: how the classifier labels `.env`. -/
def envSecretFile : SecurityFile :=
  { path := ".env"
    type := .secret
    priority := .high
    reason := "Matched secret pattern: .env" }

/-- Test fixture: an empty config chunk. -/
def emptyConfigChunk : AnalysisChunk :=
  { id := "chunk-config-0"
    type := .config
    files := []
    priority := .low
    description := "0 config files"
    estimatedTokens := 0 }

/-- Test fixture: a processor that throws on every chunk. -/
def failingProcessor : AnalysisChunk → Except String ChunkResult :=
  fun _ => Except.error "boom"

/-- Test fixture: the single chunk built for `[envSecretFile]` at time 0. -/
def secretChunkOfEnv : AnalysisChunk :=
  { id := "chunk-secret-0"
    type := .secret
    files := [envSecretFile]
    priority := .high
    description := "1 secret files"
    estimatedTokens := 200 }

/-- Modelled from the claim wording for C5: numeric priority order
(high > medium > low). -/
def priorityRank : Priority → ℕ
  | .low => 0
  | .medium => 1
  | .high => 2

theorem categoryOrder_find?_none_iff (q : FileType → Bool) :
    SecurityFileFilter.categoryOrder.find? q = none ↔ ∀ c, q c = false := by
  revert q; decide

theorem categoryOrder_find?_spec (q : FileType → Bool) (c : FileType)
    (h : SecurityFileFilter.categoryOrder.find? q = some c) :
    q c = true ∧ ∀ c₂, SecurityFileFilter.precedenceRank c₂ <
      SecurityFileFilter.precedenceRank c → q c₂ = false := by
  revert h; revert c; revert q; decide

/-- C6: for every path `p`, `isSecurityRelevant(p)` (default options) is the
pure function returning the first category in the precedence order
secret > dependency > security > deployment > config whose pattern set
matches, `none` when no category matches; the returned record (hence the
assigned category) is uniquely determined by `p`, and the function is total,
so it never raises on malformed or empty input. -/
theorem isSecurityRelevant_first_match (p : String) :
    SecurityFileFilter.isSecurityRelevant p =
      (SecurityFileFilter.firstMatchingCategory p).map (SecurityFileFilter.classifiedFileFor p) ∧
    (SecurityFileFilter.isSecurityRelevant p = none ↔
      ∀ c, SecurityFileFilter.categoryMatches c (SecurityFileFilter.normalizedPathOf p)
        (SecurityFileFilter.fileNameOf p) (SecurityFileFilter.fileExtensionOf p) = false) ∧
    ∀ f, SecurityFileFilter.isSecurityRelevant p = some f →
      f = SecurityFileFilter.classifiedFileFor p f.type ∧
      SecurityFileFilter.categoryMatches f.type (SecurityFileFilter.normalizedPathOf p)
        (SecurityFileFilter.fileNameOf p) (SecurityFileFilter.fileExtensionOf p) = true ∧
      ∀ c, SecurityFileFilter.precedenceRank c < SecurityFileFilter.precedenceRank f.type →
        SecurityFileFilter.categoryMatches c (SecurityFileFilter.normalizedPathOf p)
          (SecurityFileFilter.fileNameOf p) (SecurityFileFilter.fileExtensionOf p) = false := by
  have hinc : ∀ c, SecurityFileFilter.shouldIncludeCategory c {} = true := by
    intro c; cases c <;> rfl
  have h1 : SecurityFileFilter.isSecurityRelevant p =
      (SecurityFileFilter.firstMatchingCategory p).map (SecurityFileFilter.classifiedFileFor p) := by
    simp only [SecurityFileFilter.isSecurityRelevant, SecurityFileFilter.firstMatchingCategory,
      hinc, Bool.true_and]
    rfl
  refine ⟨h1, ?_, ?_⟩
  · rw [h1]
    cases hfm : SecurityFileFilter.firstMatchingCategory p with
    | none =>
      simpa using fun c => (categoryOrder_find?_none_iff _).mp hfm c
    | some c =>
      have hq := (categoryOrder_find?_spec _ c hfm).1
      refine ⟨fun h => absurd h (by simp), fun hall => ?_⟩
      rw [hall c] at hq
      exact absurd hq (by simp)
  · intro f hf
    rw [h1] at hf
    cases hfm : SecurityFileFilter.firstMatchingCategory p with
    | none => rw [hfm] at hf; exact absurd hf (by simp)
    | some c =>
      rw [hfm] at hf
      have hfc : SecurityFileFilter.classifiedFileFor p c = f := by simpa using hf
      obtain ⟨hq, hmin⟩ := categoryOrder_find?_spec _ c hfm
      subst hfc
      exact ⟨rfl, hq, hmin⟩

theorem isSecurityRelevant_first_match_witness :
    SecurityFileFilter.categoryMatches .secret (SecurityFileFilter.normalizedPathOf ".env")
      (SecurityFileFilter.fileNameOf ".env") (SecurityFileFilter.fileExtensionOf ".env") =
      true :=
  ((isSecurityRelevant_first_match ".env").2.2 envSecretFile (by decide)).2.1

/-- C1 counterexample: on `["package.json"]` with `maxFiles = 0` the selector
returns one entry, not the empty list the claim asserts (`0` is falsy in JS,
so the truncation branch is skipped; the same input also refutes the bound
`length ≤ maxFiles` at `maxFiles = 0`). -/
theorem filterFiles_maxFiles_zero_counterexample :
    (SecurityFileFilter.filterFiles ["package.json"] { maxFiles := some 0 }).length = 1 := by
  have h : SecurityFileFilter.isSecurityRelevant "package.json" { maxFiles := some 0 } =
      some pkgDepFile := by decide
  simp [SecurityFileFilter.filterFiles, h, List.mergeSort_singleton]

/-- C1 (amended): `maxFiles = 0` is falsy in JS and disables truncation (so
`["package.json"]` with `maxFiles = 0` yields the single dependency entry);
for every options value whose `maxFiles` is a positive `m`, `filterFiles`
returns at most `m` entries. -/
theorem filterFiles_maxFiles_positive_bound (filePaths : List String)
    (options : FileFilterOptions) (m : ℕ) (hm : options.maxFiles = some m)
    (hpos : 0 < m) :
    (SecurityFileFilter.filterFiles filePaths options).length ≤ m := by
  simp only [SecurityFileFilter.filterFiles, hm]
  split
  · simp [List.length_take]
  · next hcond =>
    have := hpos.ne
    rcases not_and_or.mp hcond with h | h
    · omega
    · omega

theorem filterFiles_maxFiles_positive_bound_witness :
    ({ maxFiles := some 1 } : FileFilterOptions).maxFiles = some 1 ∧ 0 < 1 ∧
    (SecurityFileFilter.filterFiles [".env", "package.json"] { maxFiles := some 1 }).length ≤
      1 :=
  ⟨rfl, Nat.one_pos,
    filterFiles_maxFiles_positive_bound [".env", "package.json"] { maxFiles := some 1 } 1 rfl
      Nat.one_pos⟩

/-- C10: a category is excluded only when its include-flag is explicitly
`false`: an omitted (`undefined`) flag leaves the category enabled, and the
"secrets" intent options (which set only the secret and config flags) still
admit dependency, security and deployment files through `filterFiles`. -/
theorem omitted_flag_admits_category (options : FileFilterOptions) :
    (options.includeDependencyFiles = none →
      SecurityFileFilter.shouldIncludeCategory .dependency options = true) ∧
    (options.includeSecurityFiles = none →
      SecurityFileFilter.shouldIncludeCategory .security options = true) ∧
    (options.includeDeploymentFiles = none →
      SecurityFileFilter.shouldIncludeCategory .deployment options = true) ∧
    (options.includeConfigFiles = none →
      SecurityFileFilter.shouldIncludeCategory .config options = true) ∧
    (options.includeSecretFiles = none →
      SecurityFileFilter.shouldIncludeCategory .secret options = true) ∧
    SecurityFileFilter.getAnalysisFilters "secrets" =
      { includeSecretFiles := some true, includeConfigFiles := some true,
        maxFiles := some 20 } ∧
    (SecurityFileFilter.filterFiles ["package.json"]
        (SecurityFileFilter.getAnalysisFilters "secrets")).map (fun f => f.type) =
      [.dependency] ∧
    (SecurityFileFilter.filterFiles ["firewall"]
        (SecurityFileFilter.getAnalysisFilters "secrets")).map (fun f => f.type) =
      [.security] ∧
    (SecurityFileFilter.filterFiles ["helm"]
        (SecurityFileFilter.getAnalysisFilters "secrets")).map (fun f => f.type) =
      [.deployment] := by
  have hm : (SecurityFileFilter.getAnalysisFilters "secrets").maxFiles = some 20 := by decide
  have h1 : SecurityFileFilter.isSecurityRelevant "package.json"
      (SecurityFileFilter.getAnalysisFilters "secrets") = some pkgDepFile := by decide
  have h2 : SecurityFileFilter.isSecurityRelevant "firewall"
      (SecurityFileFilter.getAnalysisFilters "secrets") =
      some { path := "firewall", type := .security, priority := .medium,
             reason := "Matched security pattern: firewall" } := by decide
  have h3 : SecurityFileFilter.isSecurityRelevant "helm"
      (SecurityFileFilter.getAnalysisFilters "secrets") =
      some { path := "helm", type := .deployment, priority := .medium,
             reason := "Matched deployment pattern: helm" } := by decide
  refine ⟨?_, ?_, ?_, ?_, ?_, by decide, ?_, ?_, ?_⟩
  · intro h; simp [SecurityFileFilter.shouldIncludeCategory, h]
  · intro h; simp [SecurityFileFilter.shouldIncludeCategory, h]
  · intro h; simp [SecurityFileFilter.shouldIncludeCategory, h]
  · intro h; simp [SecurityFileFilter.shouldIncludeCategory, h]
  · intro h; simp [SecurityFileFilter.shouldIncludeCategory, h]
  · simp [SecurityFileFilter.filterFiles, h1, hm, List.mergeSort_singleton, pkgDepFile]
  · simp [SecurityFileFilter.filterFiles, h2, hm, List.mergeSort_singleton]
  · simp [SecurityFileFilter.filterFiles, h3, hm, List.mergeSort_singleton]

theorem omitted_flag_admits_category_witness :
    SecurityFileFilter.shouldIncludeCategory .dependency {} = true :=
  (omitted_flag_admits_category {}).1 rfl

/-- C9: for a non-empty single-category file list, `estimateTokens` is
`files.length * 100` scaled by the category multiplier (secret ×2,
dependency ×1.5, config ×1.2, others ×1) and capped at 4000. -/
theorem estimateTokens_formula (files : List SecurityFile) (t : FileType)
    (hne : files ≠ []) (hall : ∀ f ∈ files, f.type = t) :
    AnalysisChunker.estimateTokens files =
      min ((files.length : ℚ) * 100 * claimCatMultiplier t) 4000 := by
  cases files with
  | nil => exact absurd rfl hne
  | cons f rest =>
    have ht : f.type = t := hall f (List.mem_cons_self f rest)
    cases t <;>
      simp [AnalysisChunker.estimateTokens, ht, claimCatMultiplier] <;> norm_num

theorem estimateTokens_formula_witness :
    ([envSecretFile] : List SecurityFile) ≠ [] ∧
    (∀ f ∈ ([envSecretFile] : List SecurityFile), f.type = .secret) ∧
    AnalysisChunker.estimateTokens [envSecretFile] =
      min ((([envSecretFile] : List SecurityFile).length : ℚ) * 100 *
        claimCatMultiplier .secret) 4000 :=
  ⟨by simp, by decide,
    estimateTokens_formula [envSecretFile] .secret (by simp) (by decide)⟩

/-- C7: the deterministic Unit Processor is total on every chunk of every
category: under the may-throw interface it always returns `ok` with a
well-formed `ChunkResult` whose findings come from the per-category (total)
heuristic analysis and whose summary is generated from those findings. -/
theorem processChunk_never_throws (analysisType : String) (chunk : AnalysisChunk) :
    ∃ r : ChunkResult, detProcessor analysisType chunk = Except.ok r ∧
      r.chunkId = chunk.id ∧ r.chunkType = chunk.type.name ∧
      r.analysisType = analysisType ∧
      r.findings = ChunkProcessor.analyzeChunkByType chunk ∧
      r.summary = ChunkProcessor.generateSummary r.findings :=
  ⟨ChunkProcessor.processChunk analysisType chunk, rfl, rfl, rfl, rfl, rfl, rfl⟩

/-- C8: the orchestrator on an empty chunk list yields the all-zero verdict
with overall risk safe, and on every input the narrative summary is generated
from the verdict's own counts, reporting as success rate the program's
double-precision `Math.round((processedChunks/totalChunks)*100)` (JS `NaN`
at `0/0`). -/
theorem processChunks_empty_and_success_rate
    (processor : AnalysisChunk → Except String ChunkResult)
    (chunks : List AnalysisChunk) :
    (let v0 := (StreamingAnalyzer.processChunks processor []).1
     v0.totalChunks = 0 ∧ v0.processedChunks = 0 ∧ v0.failedChunks = 0 ∧
     v0.totalFindings = 0 ∧ v0.criticalFindings = 0 ∧ v0.highFindings = 0 ∧
     v0.mediumFindings = 0 ∧ v0.lowFindings = 0 ∧ v0.infoFindings = 0 ∧
     v0.overallRisk = .safe) ∧
    (let v := (StreamingAnalyzer.processChunks processor chunks).1
     v.summary = StreamingAnalyzer.generateSummary v.totalChunks v.processedChunks
       v.failedChunks v.totalFindings v.criticalFindings v.highFindings
       v.mediumFindings v.lowFindings v.processingTime v.totalTokensUsed) :=
  ⟨⟨rfl, rfl, rfl, rfl, rfl, rfl, rfl, rfl, rfl, rfl⟩, rfl⟩


theorem toOption_ok (r : ChunkResult) :
    (Except.ok r : Except String ChunkResult).toOption = some r := rfl

theorem toOption_error (e : String) :
    (Except.error e : Except String ChunkResult).toOption = none := rfl

theorem isOkB_ok (r : ChunkResult) : isOkB (.ok r) = true := rfl

theorem isOkB_error (e : String) : isOkB (.error e) = false := rfl

theorem length_filterMap_toOption (processor : AnalysisChunk → Except String ChunkResult)
    (chunks : List AnalysisChunk) :
    (chunks.filterMap fun c => (processor c).toOption).length = successesIn processor chunks := by
  unfold successesIn
  induction chunks with
  | nil => rfl
  | cons c rest ih =>
    cases hc : processor c <;>
      simp [List.countP_cons, hc, List.filterMap_cons, ih, toOption_ok, toOption_error,
        isOkB_ok, isOkB_error]

theorem runChunks_unfold (processor : AnalysisChunk → Except String ChunkResult)
    (total : ℕ) (chunks : List AnalysisChunk) :
    ∀ (i : ℕ) (st : StreamingAnalyzer.RunState),
    StreamingAnalyzer.runChunks processor total i st chunks =
      { chunkResults := st.chunkResults ++ (chunks.filterMap fun c => (processor c).toOption)
        totalFindings := st.totalFindings + findingsIn processor chunks
        failedChunks := st.failedChunks + failuresIn processor chunks
        events := st.events ++ traceFor processor total i st.totalFindings st.failedChunks chunks } := by
  induction chunks with
  | nil =>
    intro i st
    simp [StreamingAnalyzer.runChunks, traceFor, findingsIn, failuresIn]
  | cons c rest ih =>
    intro i st
    simp only [StreamingAnalyzer.runChunks]
    rw [ih]
    cases hc : processor c with
    | ok r =>
      simp [StreamingAnalyzer.stepChunk, hc, traceFor, findingsIn, failuresIn,
        List.countP_cons, List.filterMap_cons, toOption_ok, isOkB_ok,
        StreamingAnalyzer.RunState.mk.injEq, List.append_assoc]
      omega
    | error e =>
      simp [StreamingAnalyzer.stepChunk, hc, traceFor, findingsIn, failuresIn,
        List.countP_cons, List.filterMap_cons, toOption_error, isOkB_error,
        StreamingAnalyzer.RunState.mk.injEq, List.append_assoc]
      omega

theorem processChunks_eq (processor : AnalysisChunk → Except String ChunkResult)
    (chunks : List AnalysisChunk) :
    StreamingAnalyzer.processChunks processor chunks =
      (StreamingAnalyzer.aggregateResults (chunks.filterMap fun c => (processor c).toOption)
        chunks.length (failuresIn processor chunks) (findingsIn processor chunks) 0,
       traceFor processor chunks.length 0 0 0 chunks) := by
  simp [StreamingAnalyzer.processChunks, runChunks_unfold processor chunks.length chunks 0 {}]

theorem errorEventsOf_traceFor (processor : AnalysisChunk → Except String ChunkResult)
    (total : ℕ) (chunks : List AnalysisChunk) :
    ∀ (i tf fc : ℕ),
    errorEventsOf (traceFor processor total i tf fc chunks) =
      chunks.filterMap fun c =>
        match processor c with
        | .error e => some (e, c)
        | .ok _ => none := by
  induction chunks with
  | nil => intro i tf fc; rfl
  | cons c rest ih =>
    intro i tf fc
    cases hc : processor c <;>
      simp only [traceFor, hc, errorEventsOf, List.filterMap_cons] <;>
      simpa [errorEventsOf] using ih _ _ _

theorem progressEventsOf_traceFor_length
    (processor : AnalysisChunk → Except String ChunkResult) (total : ℕ)
    (chunks : List AnalysisChunk) :
    ∀ (i tf fc : ℕ),
    (progressEventsOf (traceFor processor total i tf fc chunks)).length = chunks.length := by
  induction chunks with
  | nil => intro i tf fc; rfl
  | cons c rest ih =>
    intro i tf fc
    cases hc : processor c <;>
      simp only [traceFor, hc, progressEventsOf, List.filterMap_cons, List.length_cons] <;>
      simpa [progressEventsOf] using ih _ _ _

theorem progressEventsOf_traceFor_get
    (processor : AnalysisChunk → Except String ChunkResult) (total : ℕ)
    (chunks : List AnalysisChunk) :
    ∀ (j i tf fc : ℕ) (hj : j < chunks.length),
    (progressEventsOf (traceFor processor total i tf fc chunks)).get? j =
      some (StreamingAnalyzer.calculateProgress (i + j) total
        (tf + findingsIn processor (chunks.take j))
        (fc + failuresIn processor (chunks.take j))
        (chunks.get ⟨j, hj⟩).type.name) := by
  induction chunks with
  | nil => intro j i tf fc hj; exact absurd hj (by simp)
  | cons c rest ih =>
    intro j i tf fc hj
    cases j with
    | zero =>
      cases hc : processor c <;>
        simp [traceFor, hc, progressEventsOf, List.filterMap_cons, findingsIn, failuresIn]
    | succ j =>
      have hj2 : j < rest.length := by simpa using Nat.lt_of_succ_lt_succ hj
      rw [List.take_succ_cons]
      cases hc : processor c with
      | ok r =>
        have hrec := ih j (i + 1) (tf + r.findings.length) fc hj2
        simp only [traceFor, hc, progressEventsOf, List.filterMap_cons] at hrec ⊢
        rw [List.get?_cons_succ, hrec]
        have hf : findingsIn processor (c :: List.take j rest) =
            r.findings.length + findingsIn processor (List.take j rest) := by
          simp [findingsIn, hc]
        have hfl : failuresIn processor (c :: List.take j rest) =
            failuresIn processor (List.take j rest) := by
          simp [failuresIn, List.countP_cons, hc, isOkB_ok]
        have hi : i + (j + 1) = i + 1 + j := by omega
        rw [hf, hfl, hi]
        simp [StreamingAnalyzer.calculateProgress, StreamingProgress.mk.injEq] <;> omega
      | error e =>
        have hrec := ih j (i + 1) tf (fc + 1) hj2
        simp only [traceFor, hc, progressEventsOf, List.filterMap_cons] at hrec ⊢
        rw [List.get?_cons_succ, hrec]
        have hf : findingsIn processor (c :: List.take j rest) =
            findingsIn processor (List.take j rest) := by
          simp [findingsIn, hc]
        have hfl : failuresIn processor (c :: List.take j rest) =
            failuresIn processor (List.take j rest) + 1 := by
          simp [failuresIn, List.countP_cons, hc, isOkB_error]
        have hi : i + (j + 1) = i + 1 + j := by omega
        rw [hf, hfl, hi]
        simp [StreamingAnalyzer.calculateProgress, StreamingProgress.mk.injEq] <;> omega

/-- C4: when processing a chunk throws, the orchestrator bumps the failure
counter, invokes `onError` with the error and the failing chunk, and moves on
to the next chunk; the run always terminates in a completed verdict (one
progress event per chunk, even after failures), with `failedChunks` the number
of throwing chunks and `processedChunks` the number of non-throwing chunks. -/
theorem processChunks_failure_tolerant (processor : AnalysisChunk → Except String ChunkResult)
    (chunks : List AnalysisChunk) :
    (StreamingAnalyzer.processChunks processor chunks).1.totalChunks = chunks.length ∧
    (StreamingAnalyzer.processChunks processor chunks).1.failedChunks =
      failuresIn processor chunks ∧
    (StreamingAnalyzer.processChunks processor chunks).1.processedChunks =
      successesIn processor chunks ∧
    errorEventsOf (StreamingAnalyzer.processChunks processor chunks).2 =
      (chunks.filterMap fun c =>
        match processor c with
        | .error e => some (e, c)
        | .ok _ => none) ∧
    (progressEventsOf (StreamingAnalyzer.processChunks processor chunks).2).length =
      chunks.length := by
  rw [processChunks_eq]
  refine ⟨rfl, rfl, ?_, ?_, ?_⟩
  · exact length_filterMap_toOption processor chunks
  · exact errorEventsOf_traceFor processor chunks.length chunks 0 0 0
  · exact progressEventsOf_traceFor_length processor chunks.length chunks 0 0 0

/-- C2 (amended): before processing the chunk at index `i` (of `N` chunks) the
orchestrator invokes `onProgress` with `currentChunk = i+1`, `totalChunks = N`,
`percentage = Math.round(((i+1)/N)*100)` evaluated in IEEE-754 double
arithmetic (one less than exact half-up rounding at e.g. `i+1 = 23, N = 40`),
`failedChunks` equal to the number of chunks failed so far and `totalFindings`
equal to the cumulative finding count so far — but `processedChunks` equal to
the loop index `i`, the number of chunks attempted so far, which coincides
with the number successfully processed only while no chunk has failed. -/
theorem processChunks_progress_fields (processor : AnalysisChunk → Except String ChunkResult)
    (chunks : List AnalysisChunk) (i : ℕ) (h : i < chunks.length) :
    (progressEventsOf (StreamingAnalyzer.processChunks processor chunks).2).get? i =
      some { currentChunk := i + 1
             totalChunks := chunks.length
             currentChunkType := (chunks.get ⟨i, h⟩).type.name
             processedChunks := i
             failedChunks := failuresIn processor (chunks.take i)
             totalFindings := findingsIn processor (chunks.take i)
             estimatedTimeRemaining := (chunks.length - i - 1) * 100
             percentage := jsPercentage (i + 1) chunks.length } := by
  rw [processChunks_eq]
  have := progressEventsOf_traceFor_get processor chunks.length chunks i 0 0 0 h
  simpa [StreamingAnalyzer.calculateProgress] using this

/-- C2 counterexample: with a processor that throws on every chunk, the
progress report before the second chunk (index 1) carries
`processedChunks = 1` although no chunk has been successfully processed; and
on a 40-chunk list the report before the chunk at index 22 carries
percentage 57, while the claim's `round((i+1)/N * 100)` is
`round(57.5) = 58` — the double product `(23/40)*100` falls just below 57.5.
Either deviation refutes the claim as stated. -/
theorem processChunks_progress_counterexample :
    ((progressEventsOf (StreamingAnalyzer.processChunks failingProcessor
        [emptyConfigChunk, emptyConfigChunk]).2).get? 1).map (fun p => p.processedChunks) =
      some 1 ∧
    successesIn failingProcessor ([emptyConfigChunk, emptyConfigChunk].take 1) = 0 ∧
    ((progressEventsOf (StreamingAnalyzer.processChunks failingProcessor
        (List.replicate 40 emptyConfigChunk)).2).get? 22).map (fun p => p.percentage) =
      some 57 ∧
    (200 * 23 + 40) / (2 * 40) = 58 := by
  decide

theorem processChunks_progress_fields_witness :
    (progressEventsOf (StreamingAnalyzer.processChunks (detProcessor "secrets")
        [emptyConfigChunk]).2).get? 0 =
      some { currentChunk := 1, totalChunks := 1, currentChunkType := "config",
             processedChunks := 0, failedChunks := 0, totalFindings := 0,
             estimatedTimeRemaining := 0, percentage := 100 } := by
  have := processChunks_progress_fields (detProcessor "secrets") [emptyConfigChunk] 0
    (by decide)
  have hp : jsPercentage 1 1 = 100 := by decide
  simpa [failuresIn, findingsIn, hp, emptyConfigChunk, FileType.name] using this

theorem length_filter_pos_iff_any {α : Type} (p : α → Bool) (l : List α) :
    0 < (l.filter p).length ↔ l.any p = true := by
  rw [← List.countP_eq_length_filter, List.countP_pos_iff, List.any_eq_true]

theorem generateSummary_overallRisk (findings : List ChunkFinding) :
    (ChunkProcessor.generateSummary findings).overallRisk =
      specWorstSeverityRollup findings := by
  simp only [ChunkProcessor.generateSummary, specWorstSeverityRollup, gt_iff_lt,
    length_filter_pos_iff_any]

theorem filterMap_detProcessor (analysisType : String) (chunks : List AnalysisChunk) :
    (chunks.filterMap fun c => (detProcessor analysisType c).toOption) =
      chunks.map (ChunkProcessor.processChunk analysisType) := by
  simp only [detProcessor, Except.toOption]
  exact congrFun (List.filterMap_eq_map (ChunkProcessor.processChunk analysisType)) chunks

theorem processChunk_summary_counts (analysisType : String) (chunk : AnalysisChunk) :
    (ChunkProcessor.processChunk analysisType chunk).summary.criticalFindings =
      (ChunkProcessor.processChunk analysisType chunk).findings.countP
        (fun f => f.severity == .critical) ∧
    (ChunkProcessor.processChunk analysisType chunk).summary.highFindings =
      (ChunkProcessor.processChunk analysisType chunk).findings.countP
        (fun f => f.severity == .high) ∧
    (ChunkProcessor.processChunk analysisType chunk).summary.mediumFindings =
      (ChunkProcessor.processChunk analysisType chunk).findings.countP
        (fun f => f.severity == .medium) ∧
    (ChunkProcessor.processChunk analysisType chunk).summary.lowFindings =
      (ChunkProcessor.processChunk analysisType chunk).findings.countP
        (fun f => f.severity == .low) := by
  refine ⟨?_, ?_, ?_, ?_⟩ <;>
    simp [ChunkProcessor.processChunk, ChunkProcessor.generateSummary,
      List.countP_eq_length_filter]

theorem specRollup_eq_critical_iff (l : List ChunkFinding) :
    specWorstSeverityRollup l = .critical ↔ ∃ f ∈ l, f.severity = .critical := by
  unfold specWorstSeverityRollup
  split_ifs with h1 h2 h3 h4 <;> simp_all [List.any_eq_true]

theorem specRollup_safe_all_info (l : List ChunkFinding)
    (h : specWorstSeverityRollup l = .safe) : ∀ f ∈ l, f.severity = .info := by
  intro f hf
  unfold specWorstSeverityRollup at h
  split_ifs at h with h1 h2 h3 h4
  cases hs : f.severity
  · exact absurd (List.any_eq_true.mpr ⟨f, hf, by simp [hs]⟩) h1
  · exact absurd (List.any_eq_true.mpr ⟨f, hf, by simp [hs]⟩) h2
  · exact absurd (List.any_eq_true.mpr ⟨f, hf, by simp [hs]⟩) h3
  · exact absurd (List.any_eq_true.mpr ⟨f, hf, by simp [hs]⟩) h4
  · rfl

theorem analyzeChunkByType_no_info (chunk : AnalysisChunk) :
    ∀ f ∈ ChunkProcessor.analyzeChunkByType chunk, f.severity ≠ .info := by
  intro f hf hinfo
  cases htype : chunk.type <;> simp only [ChunkProcessor.analyzeChunkByType, htype] at hf
  · simp only [ChunkProcessor.analyzeConfigFiles, List.mem_map] at hf
    obtain ⟨file, -, rfl⟩ := hf
    simp at hinfo
  · simp only [ChunkProcessor.analyzeDependencyFiles, List.mem_flatten, List.mem_map] at hf
    obtain ⟨l, ⟨file, -, rfl⟩, hm⟩ := hf
    rcases List.mem_append.mp hm with hm2 | hm2 <;> split_ifs at hm2 <;> simp_all
  · simp only [ChunkProcessor.analyzeSecretFiles, List.mem_flatten, List.mem_map] at hf
    obtain ⟨l, ⟨file, -, rfl⟩, hm⟩ := hf
    rcases List.mem_append.mp hm with hm2 | hm2 <;> split_ifs at hm2 <;> simp_all
  · simp only [ChunkProcessor.analyzeSecurityFiles, List.mem_map] at hf
    obtain ⟨file, -, rfl⟩ := hf
    simp at hinfo
  · simp only [ChunkProcessor.analyzeDeploymentFiles, List.mem_flatten, List.mem_map] at hf
    obtain ⟨l, ⟨file, -, rfl⟩, hm⟩ := hf
    rcases List.mem_append.mp hm with hm2 | hm2 <;> split_ifs at hm2 <;> simp_all

theorem countP_pos_iff_any {α : Type} (p : α → Bool) (l : List α) :
    0 < l.countP p ↔ l.any p = true := by
  rw [List.countP_pos_iff, List.any_eq_true]

theorem aggregateResults_overallRisk_map (analysisType : String) (chunks : List AnalysisChunk)
    (total failed tf time : ℕ) :
    (StreamingAnalyzer.aggregateResults (chunks.map (ChunkProcessor.processChunk analysisType))
      total failed tf time).overallRisk =
      specWorstSeverityRollup ((chunks.map fun c =>
        (ChunkProcessor.processChunk analysisType c).findings).flatten) := by
  have hcc : ((chunks.map (ChunkProcessor.processChunk analysisType)).map fun r =>
      r.summary.criticalFindings).sum =
      ((chunks.map fun c => (ChunkProcessor.processChunk analysisType c).findings).flatten).countP
        (fun f => f.severity == .critical) := by
    rw [List.map_map, List.countP_flatten, List.map_map]
    apply congrArg List.sum
    apply List.map_congr_left
    intro c _
    simp only [Function.comp]
    exact (processChunk_summary_counts analysisType c).1
  have hhh : ((chunks.map (ChunkProcessor.processChunk analysisType)).map fun r =>
      r.summary.highFindings).sum =
      ((chunks.map fun c => (ChunkProcessor.processChunk analysisType c).findings).flatten).countP
        (fun f => f.severity == .high) := by
    rw [List.map_map, List.countP_flatten, List.map_map]
    apply congrArg List.sum
    apply List.map_congr_left
    intro c _
    simp only [Function.comp]
    exact (processChunk_summary_counts analysisType c).2.1
  have hmm2 : ((chunks.map (ChunkProcessor.processChunk analysisType)).map fun r =>
      r.summary.mediumFindings).sum =
      ((chunks.map fun c => (ChunkProcessor.processChunk analysisType c).findings).flatten).countP
        (fun f => f.severity == .medium) := by
    rw [List.map_map, List.countP_flatten, List.map_map]
    apply congrArg List.sum
    apply List.map_congr_left
    intro c _
    simp only [Function.comp]
    exact (processChunk_summary_counts analysisType c).2.2.1
  have hll : ((chunks.map (ChunkProcessor.processChunk analysisType)).map fun r =>
      r.summary.lowFindings).sum =
      ((chunks.map fun c => (ChunkProcessor.processChunk analysisType c).findings).flatten).countP
        (fun f => f.severity == .low) := by
    rw [List.map_map, List.countP_flatten, List.map_map]
    apply congrArg List.sum
    apply List.map_congr_left
    intro c _
    simp only [Function.comp]
    exact (processChunk_summary_counts analysisType c).2.2.2
  simp only [StreamingAnalyzer.aggregateResults, gt_iff_lt]
  simp only [hcc, hhh, hmm2, hll, countP_pos_iff_any]
  unfold specWorstSeverityRollup
  rfl

theorem findingsIn_det_eq_flatten_length (analysisType : String) (chunks : List AnalysisChunk) :
    findingsIn (detProcessor analysisType) chunks =
      ((chunks.map fun c => (ChunkProcessor.processChunk analysisType c).findings).flatten).length := by
  rw [List.length_flatten, List.map_map]
  simp [findingsIn, detProcessor, Function.comp]
  rfl

/-- C3: with the deterministic `ChunkProcessor`, the aggregated verdict is
"critical" iff some processed chunk has a critical finding, and both the
repository-level and the chunk-level risk follow worst-severity-wins
precedence (critical, else high, else medium, else low, else safe with zero
findings — the heuristics never emit info-severity findings, so "safe"
implies an empty finding set at both levels). -/
theorem severity_rollup_det (analysisType : String) (chunks : List AnalysisChunk) :
    ((StreamingAnalyzer.processChunks (detProcessor analysisType) chunks).1.overallRisk =
        .critical ↔
      ∃ c ∈ chunks, ∃ f ∈ (ChunkProcessor.processChunk analysisType c).findings,
        f.severity = .critical) ∧
    (StreamingAnalyzer.processChunks (detProcessor analysisType) chunks).1.overallRisk =
      specWorstSeverityRollup ((chunks.map fun c =>
        (ChunkProcessor.processChunk analysisType c).findings).flatten) ∧
    ((StreamingAnalyzer.processChunks (detProcessor analysisType) chunks).1.overallRisk =
        .safe →
      (StreamingAnalyzer.processChunks (detProcessor analysisType) chunks).1.totalFindings = 0) ∧
    ∀ chunk : AnalysisChunk,
      (ChunkProcessor.processChunk analysisType chunk).summary.overallRisk =
        specWorstSeverityRollup (ChunkProcessor.processChunk analysisType chunk).findings ∧
      ((ChunkProcessor.processChunk analysisType chunk).summary.overallRisk = .safe →
        (ChunkProcessor.processChunk analysisType chunk).findings = []) := by
  have hv : (StreamingAnalyzer.processChunks (detProcessor analysisType) chunks).1 =
      StreamingAnalyzer.aggregateResults
        (chunks.map (ChunkProcessor.processChunk analysisType)) chunks.length
        (failuresIn (detProcessor analysisType) chunks)
        (findingsIn (detProcessor analysisType) chunks) 0 := by
    rw [processChunks_eq, filterMap_detProcessor]
  have hrisk : (StreamingAnalyzer.processChunks (detProcessor analysisType) chunks).1.overallRisk =
      specWorstSeverityRollup ((chunks.map fun c =>
        (ChunkProcessor.processChunk analysisType c).findings).flatten) := by
    rw [hv]; exact aggregateResults_overallRisk_map analysisType chunks _ _ _ _
  refine ⟨?_, hrisk, ?_, ?_⟩
  · rw [hrisk, specRollup_eq_critical_iff]
    constructor
    · rintro ⟨f, hfm, hsev⟩
      rw [List.mem_flatten] at hfm
      obtain ⟨l, hl, hfl⟩ := hfm
      rw [List.mem_map] at hl
      obtain ⟨c, hc, rfl⟩ := hl
      exact ⟨c, hc, f, hfl, hsev⟩
    · rintro ⟨c, hc, f, hf, hsev⟩
      refine ⟨f, List.mem_flatten.mpr ⟨_, List.mem_map.mpr ⟨c, hc, rfl⟩, hf⟩, hsev⟩
  · intro hsafe
    have hflat : ∀ f ∈ (chunks.map fun c =>
        (ChunkProcessor.processChunk analysisType c).findings).flatten, f.severity = .info :=
      specRollup_safe_all_info _ (hrisk ▸ hsafe)
    have hnil : (chunks.map fun c =>
        (ChunkProcessor.processChunk analysisType c).findings).flatten = [] := by
      rw [List.eq_nil_iff_forall_not_mem]
      intro f hfm
      have hinfo := hflat f hfm
      rw [List.mem_flatten] at hfm
      obtain ⟨l, hl, hfl⟩ := hfm
      rw [List.mem_map] at hl
      obtain ⟨c, hc, rfl⟩ := hl
      exact analyzeChunkByType_no_info c f hfl hinfo
    have hlen := findingsIn_det_eq_flatten_length analysisType chunks
    rw [hnil] at hlen
    rw [hv]
    simpa [StreamingAnalyzer.aggregateResults] using hlen
  · intro chunk
    constructor
    · exact generateSummary_overallRisk (ChunkProcessor.analyzeChunkByType chunk)
    · intro hsafe
      have hall := specRollup_safe_all_info (ChunkProcessor.analyzeChunkByType chunk)
        ((generateSummary_overallRisk (ChunkProcessor.analyzeChunkByType chunk)) ▸ hsafe)
      rw [List.eq_nil_iff_forall_not_mem]
      intro f hfm
      exact analyzeChunkByType_no_info chunk f hfm (hall f hfm)

theorem severity_rollup_det_witness :
    (StreamingAnalyzer.processChunks (detProcessor "secrets")
      ([] : List AnalysisChunk)).1.totalFindings = 0 :=
  (severity_rollup_det "secrets" []).2.2.1 rfl

theorem typeInsertionOrder_nodup (files : List SecurityFile) :
    (AnalysisChunker.typeInsertionOrder files).Nodup := by
  induction files with
  | nil => exact List.nodup_nil
  | cons f rest ih =>
    rw [AnalysisChunker.typeInsertionOrder, List.nodup_cons]
    constructor
    · intro hmem
      have := (List.mem_filter.mp hmem).2
      simp at this
    · exact ih.filter _

theorem mem_typeInsertionOrder (files : List SecurityFile) (t : FileType) :
    t ∈ AnalysisChunker.typeInsertionOrder files ↔ ∃ f ∈ files, f.type = t := by
  induction files with
  | nil => simp [AnalysisChunker.typeInsertionOrder]
  | cons f rest ih =>
    rw [AnalysisChunker.typeInsertionOrder]
    simp only [List.mem_cons, List.mem_filter, ih]
    by_cases ht : t = f.type
    · subst ht; simp
    · constructor
      · rintro (rfl | ⟨⟨g, hg, rfl⟩, -⟩)
        · exact ⟨f, Or.inl rfl, rfl⟩
        · exact ⟨g, Or.inr hg, rfl⟩
      · rintro ⟨g, hg | hg, rfl⟩
        · exact absurd rfl (by subst hg; exact ht)
        · exact Or.inr ⟨⟨g, hg, rfl⟩, by simpa using fun h => ht h⟩

theorem filterMap_eq_map_of_some {α β : Type} (g : α → Option β) (h : α → β) (l : List α)
    (hl : ∀ a ∈ l, g a = some (h a)) : l.filterMap g = l.map h := by
  induction l with
  | nil => rfl
  | cons a rest ih =>
    rw [List.filterMap_cons, hl a (List.mem_cons_self a rest),
      ih fun b hb => hl b (List.mem_cons_of_mem a hb), List.map_cons]

theorem flatten_filter_perm (ts : List FileType) :
    ∀ (files : List SecurityFile), ts.Nodup → (∀ f ∈ files, f.type ∈ ts) →
    ((ts.map fun t => files.filter fun f => f.type == t).flatten).Perm files := by
  induction ts with
  | nil =>
    intro files _ hcov
    have hnil : files = [] := List.eq_nil_iff_forall_not_mem.mpr fun f hf => by
      simpa using hcov f hf
    simp [hnil]
  | cons t ts ih =>
    intro files hnd hcov
    obtain ⟨hni, hnd2⟩ := List.nodup_cons.mp hnd
    have hrw : (ts.map fun u => files.filter fun f => f.type == u) =
        ts.map fun u => (files.filter fun f => !(f.type == t)).filter fun f => f.type == u := by
      apply List.map_congr_left
      intro u hu
      rw [List.filter_filter]
      apply List.filter_congr
      intro f _
      have hut : u ≠ t := fun h => hni (h ▸ hu)
      cases hfu : f.type == u with
      | false => simp
      | true =>
        have : f.type = u := by simpa using hfu
        simp [this, hut]
    have hcov2 : ∀ f ∈ files.filter (fun f => !(f.type == t)), f.type ∈ ts := by
      intro f hf
      obtain ⟨hfm, hft⟩ := List.mem_filter.mp hf
      have hmem := hcov f hfm
      rcases List.mem_cons.mp hmem with h | h
      · exact absurd h (by simpa using hft)
      · exact h
    rw [List.map_cons, List.flatten_cons, hrw]
    exact (List.Perm.append_left _ (ih _ hnd2 hcov2)).trans
      (List.filter_append_perm (fun f => f.type == t) files)

theorem chunkByType_eq_map (files : List SecurityFile) (now : ℕ) :
    AnalysisChunker.chunkByType files now =
      (AnalysisChunker.typeInsertionOrder files).map fun t =>
        { id := "chunk-" ++ t.name ++ "-" ++ toString now
          type := t
          files := files.filter fun f => f.type == t
          priority := AnalysisChunker.getChunkPriority (files.filter fun f => f.type == t)
          description := toString (files.filter fun f => f.type == t).length ++ " " ++
            t.name ++ " files"
          estimatedTokens := AnalysisChunker.estimateTokens (files.filter fun f => f.type == t) } := by
  unfold AnalysisChunker.chunkByType
  apply filterMap_eq_map_of_some
  intro t ht
  obtain ⟨f, hf, hft⟩ := (mem_typeInsertionOrder files t).mp ht
  have hne : (files.filter fun f => f.type == t) ≠ [] := by
    intro hnil
    have : f ∈ files.filter fun f => f.type == t :=
      List.mem_filter.mpr ⟨hf, by simp [hft]⟩
    rw [hnil] at this
    simp at this
  simp only [List.length_eq_zero]
  rw [if_neg hne]

theorem contains_priority_iff (files : List SecurityFile) (p : Priority) :
    (files.map fun f => f.priority).contains p = true ↔ ∃ f ∈ files, f.priority = p := by
  simp [List.contains, List.elem_iff, List.mem_map]

theorem getChunkPriority_is_max (files : List SecurityFile) :
    (∀ f ∈ files, priorityRank f.priority ≤
      priorityRank (AnalysisChunker.getChunkPriority files)) ∧
    (files ≠ [] → ∃ f ∈ files, f.priority = AnalysisChunker.getChunkPriority files) := by
  unfold AnalysisChunker.getChunkPriority
  by_cases hh : ((files.map fun f => f.priority).contains Priority.high) = true
  · rw [if_pos hh]
    refine ⟨fun f _ => by cases f.priority <;> simp [priorityRank], fun _ => ?_⟩
    exact (contains_priority_iff files .high).mp hh
  · rw [if_neg hh]
    have hnohigh : ∀ f ∈ files, f.priority ≠ .high := by
      intro f hf heq
      exact hh ((contains_priority_iff files .high).mpr ⟨f, hf, heq⟩)
    by_cases hm : ((files.map fun f => f.priority).contains Priority.medium) = true
    · rw [if_pos hm]
      refine ⟨fun f hf => ?_, fun _ => (contains_priority_iff files .medium).mp hm⟩
      cases hp : f.priority
      · exact absurd hp (hnohigh f hf)
      · simp [priorityRank]
      · simp [priorityRank]
    · rw [if_neg hm]
      have hnomed : ∀ f ∈ files, f.priority ≠ .medium := by
        intro f hf heq
        exact hm ((contains_priority_iff files .medium).mpr ⟨f, hf, heq⟩)
      refine ⟨fun f hf => ?_, fun hne => ?_⟩
      · cases hp : f.priority
        · exact absurd hp (hnohigh f hf)
        · exact absurd hp (hnomed f hf)
        · simp [priorityRank]
      · cases files with
        | nil => exact absurd rfl hne
        | cons f rest =>
          refine ⟨f, List.mem_cons_self f rest, ?_⟩
          cases hp : f.priority
          · exact absurd hp (hnohigh f (List.mem_cons_self f rest))
          · exact absurd hp (hnomed f (List.mem_cons_self f rest))
          · rfl

/-- C5: `chunkByType` partitions its input by category: every file of a chunk
has the chunk's category, no two chunks share a category, the concatenation of
all chunks' file lists is a permutation of the input (no file lost or
duplicated), a category absent from the input yields no chunk, and each
chunk's priority is the highest priority (high > medium > low) among its
member files. -/
theorem chunkByType_partition (files : List SecurityFile) (now : ℕ) :
    (∀ c ∈ AnalysisChunker.chunkByType files now, ∀ f ∈ c.files, f.type = c.type) ∧
    ((AnalysisChunker.chunkByType files now).map fun c => c.type).Nodup ∧
    (((AnalysisChunker.chunkByType files now).map fun c => c.files).flatten).Perm files ∧
    (∀ c ∈ AnalysisChunker.chunkByType files now, ∃ f ∈ files, f.type = c.type) ∧
    (∀ c ∈ AnalysisChunker.chunkByType files now,
      (∀ f ∈ c.files, priorityRank f.priority ≤ priorityRank c.priority) ∧
      ∃ f ∈ c.files, f.priority = c.priority) := by
  rw [chunkByType_eq_map]
  have hmemtype : ∀ c, c ∈ ((AnalysisChunker.typeInsertionOrder files).map fun t =>
      ({ id := "chunk-" ++ t.name ++ "-" ++ toString now
         type := t
         files := files.filter fun f => f.type == t
         priority := AnalysisChunker.getChunkPriority (files.filter fun f => f.type == t)
         description := toString (files.filter fun f => f.type == t).length ++ " " ++
           t.name ++ " files"
         estimatedTokens := AnalysisChunker.estimateTokens
           (files.filter fun f => f.type == t) } : AnalysisChunk)) →
      c.files = files.filter (fun f => f.type == c.type) ∧
      c.priority = AnalysisChunker.getChunkPriority c.files ∧
      c.type ∈ AnalysisChunker.typeInsertionOrder files := by
    intro c hc
    rw [List.mem_map] at hc
    obtain ⟨t, ht, rfl⟩ := hc
    exact ⟨rfl, rfl, ht⟩
  refine ⟨?_, ?_, ?_, ?_, ?_⟩
  · intro c hc f hf
    obtain ⟨hcf, -, -⟩ := hmemtype c hc
    rw [hcf] at hf
    simpa using (List.mem_filter.mp hf).2
  · rw [List.map_map]
    have : ((fun c : AnalysisChunk => c.type) ∘ fun t =>
        ({ id := "chunk-" ++ t.name ++ "-" ++ toString now
           type := t
           files := files.filter fun f => f.type == t
           priority := AnalysisChunker.getChunkPriority (files.filter fun f => f.type == t)
           description := toString (files.filter fun f => f.type == t).length ++ " " ++
             t.name ++ " files"
           estimatedTokens := AnalysisChunker.estimateTokens
             (files.filter fun f => f.type == t) } : AnalysisChunk)) = id := by
      funext t; rfl
    rw [this, List.map_id]
    exact typeInsertionOrder_nodup files
  · rw [List.map_map]
    have : ((fun c : AnalysisChunk => c.files) ∘ fun t =>
        ({ id := "chunk-" ++ t.name ++ "-" ++ toString now
           type := t
           files := files.filter fun f => f.type == t
           priority := AnalysisChunker.getChunkPriority (files.filter fun f => f.type == t)
           description := toString (files.filter fun f => f.type == t).length ++ " " ++
             t.name ++ " files"
           estimatedTokens := AnalysisChunker.estimateTokens
             (files.filter fun f => f.type == t) } : AnalysisChunk)) =
        fun t => files.filter fun f => f.type == t := by
      funext t; rfl
    rw [this]
    exact flatten_filter_perm _ files (typeInsertionOrder_nodup files)
      (fun f hf => (mem_typeInsertionOrder files f.type).mpr ⟨f, hf, rfl⟩)
  · intro c hc
    obtain ⟨-, -, hct⟩ := hmemtype c hc
    exact (mem_typeInsertionOrder files c.type).mp hct
  · intro c hc
    obtain ⟨hcf, hcp, hct⟩ := hmemtype c hc
    obtain ⟨f, hf, hft⟩ := (mem_typeInsertionOrder files c.type).mp hct
    have hne : c.files ≠ [] := by
      rw [hcf]
      intro hnil
      have : f ∈ files.filter fun g => g.type == c.type :=
        List.mem_filter.mpr ⟨hf, by simp [hft]⟩
      rw [hnil] at this
      simp at this
    have hmax := getChunkPriority_is_max c.files
    rw [← hcp] at hmax
    exact ⟨hmax.1, hmax.2 hne⟩

theorem chunkByType_partition_witness :
    envSecretFile.type = secretChunkOfEnv.type ∧
    (((AnalysisChunker.chunkByType [envSecretFile] 0).map fun c => c.files).flatten).Perm
      [envSecretFile] := by
  have hc : AnalysisChunker.chunkByType [envSecretFile] 0 = [secretChunkOfEnv] := by
    simp only [secretChunkOfEnv]
    simp [AnalysisChunker.chunkByType, AnalysisChunker.typeInsertionOrder,
      AnalysisChunker.getChunkPriority, envSecretFile]
    refine ⟨by decide, by decide, ?_⟩
    norm_num [AnalysisChunker.estimateTokens]
  refine ⟨?_, (chunkByType_partition [envSecretFile] 0).2.2.1⟩
  exact (chunkByType_partition [envSecretFile] 0).1 secretChunkOfEnv
    (by rw [hc]; exact List.mem_singleton_self _) envSecretFile (by simp [secretChunkOfEnv])
